import Mathlib

/-!
Shallow embedding of the C4 diagram hierarchy engine from
`src/c4_diagram_generator.py` and `src/models.py`.

Modeling conventions:

* Python `uuid.uuid4()` draws are modeled by a fresh-id counter `nextId` in
  the generator state: each draw returns the current counter value and
  increments it, so distinct draws are distinct, mirroring uuid freshness.
  Element and diagram identifiers are therefore `Nat`.
  (`create_context_diagram` derives its element id as the string
  `f"{diagram_id}_system"`, which is distinct from every uuid; the model
  draws a second fresh id for it, keeping the same distinctness.)
* `datetime.now()` is modeled by a logical clock `clock` that every call
  reads and then advances, so later timestamps are strictly larger.
* The Python dicts `self.elements` and `self.diagrams` are modeled as
  insertion-ordered association lists: `dictGet` is `dict.get`, insertion
  of a fresh key appends at the end, and the iteration of `drill_down` over
  `self.diagrams.values()` scans in insertion order, exactly as Python
  dicts (3.7+) iterate.
* In Python a `C4Diagram.elements` entry is a reference to the very object
  stored in `self.elements` (pydantic v2 does not copy already-validated
  model instances).  The model stores the id of the element in the diagram and
  observes the element through the store, which is the same aliasing
  semantics: mutating the stored element is visible through every diagram
  that contains it.
* The pydantic `model_dump_json` is external library serialization and is
  not modeled; of `export_diagram` only the "dot" branch is embedded.
-/

/-- `C4Level` from `src/models.py` (context / container / component / code). -/
inductive C4Level where
  | context
  | container
  | component
  | code
  deriving DecidableEq, Repr, Inhabited

/-- The index of a level in the ordered list
`[CONTEXT, CONTAINER, COMPONENT, CODE]` used by `_get_next_level`. -/
def levelIdx : C4Level → Nat
  | .context => 0
  | .container => 1
  | .component => 2
  | .code => 3

/-- `_get_next_level` from `src/c4_diagram_generator.py`: successor in the
fixed level order, saturating at `code` (the source walks the list
`level_order` by index and returns the current level when there is no
next index). -/
def next_level : C4Level → C4Level
  | .context => .container
  | .container => .component
  | .component => .code
  | .code => .code

/-- `C4Element` from `src/models.py`.  `type` is the kind string
("System" / "Container" / "Component").  `technology` is `Optional[str]`
in the source but every constructor in `c4_diagram_generator.py` supplies
a string, so it is modeled as `String`.  `properties` is an opaque
string-keyed bag whose values no claim inspects, modeled as an
association list of strings. -/
structure C4Element where
  id : Nat
  name : String
  type : String
  level : C4Level
  description : String
  technology : String
  relationships : List String
  properties : List (String × String)
  parent_id : Option Nat
  children : List Nat
  deriving DecidableEq, Repr, Inhabited

/-- A relationship dict as built in `c4_diagram_generator.py`
(`{"id": ..., "from": ..., "to": ..., "description": ..., "technology": ...}`).
`from` is a Lean keyword, hence the field names `from_` / `to_`. -/
structure Relationship where
  id : Nat
  from_ : Nat
  to_ : Nat
  description : String
  technology : String
  deriving DecidableEq, Repr, Inhabited

/-- `C4Diagram` from `src/models.py`.  `elements` holds the ids of the
referenced elements (see the aliasing convention in the header);
timestamps are logical clock ticks. -/
structure C4Diagram where
  id : Nat
  name : String
  level : C4Level
  elements : List Nat
  relationships : List Relationship
  created_at : Nat
  updated_at : Nat
  deriving DecidableEq, Repr, Inhabited

/-- The `C4DiagramGenerator` object state: the two insertion-ordered
stores plus the uuid counter and the logical clock. -/
structure GenState where
  diagrams : List (Nat × C4Diagram)
  elements : List (Nat × C4Element)
  nextId : Nat
  clock : Nat
  deriving DecidableEq, Repr, Inhabited

/-- The state of a freshly constructed `C4DiagramGenerator`
(`self.diagrams = {}`, `self.elements = {}`). -/
def initState : GenState := ⟨[], [], 0, 0⟩

/-- Python `dict.get`: first (unique) binding of the key, `None` if absent. -/
def dictGet (k : Nat) : List (Nat × α) → Option α
  | [] => none
  | (k2, v) :: rest => if k = k2 then some v else dictGet k rest

/-- In-place mutation of the value stored under a key (Python mutates the
object found by `dict.get`); keys and order are unchanged, missing keys
are a no-op. -/
def updateAssoc (l : List (Nat × α)) (k : Nat) (f : α → α) : List (Nat × α) :=
  match l with
  | [] => []
  | (k2, v) :: rest => if k2 = k then (k2, f v) :: rest else (k2, v) :: updateAssoc rest k f

/-- One `uuid.uuid4()` draw. -/
def fresh (s : GenState) : Nat × GenState :=
  (s.nextId, { s with nextId := s.nextId + 1 })

/-- One `datetime.now()` call. -/
def now (s : GenState) : Nat × GenState :=
  (s.clock, { s with clock := s.clock + 1 })

/-- One container/component spec dict consumed by
`create_container_diagram` / `create_component_diagram`: `"name"` is
required, the rest is read with `.get(..., default)`. -/
structure ElementSpec where
  name : String
  description : Option String := none
  technology : Option String := none
  properties : Option (List (String × String)) := none
  deriving DecidableEq, Repr, Inhabited

/-- The child element built for one spec inside the creation loop of
`create_container_diagram` (lines 62-73) / `create_component_diagram`
(lines 119-130): fresh id, kind string `ty`, level `lvl`,
`parent_id = anchor`, empty `children`. -/
def specElement (lvl : C4Level) (ty : String) (anchor cid : Nat) (spec : ElementSpec) : C4Element :=
  { id := cid, name := spec.name, type := ty, level := lvl,
    description := spec.description.getD "", technology := spec.technology.getD "",
    relationships := [], properties := spec.properties.getD [],
    parent_id := some anchor, children := [] }

/-- The `for container_info in containers` / `for component_info in
components` loop shared (textually duplicated) by
`create_container_diagram` and `create_component_diagram`: per spec it
draws a fresh element id, stores the new element, draws a fresh
relationship id, records the implicit edge `(new -> anchor, rdesc)`, and
appends the new id to the `children` of the anchor.  Returns the new element
ids, the relationships, and the final state. -/
def buildLoop (lvl : C4Level) (ty rdesc : String) (anchor : Nat) :
    List ElementSpec → GenState → List Nat × List Relationship × GenState
  | [], s => ([], [], s)
  | spec :: rest, s =>
    let (cid, s1) := fresh s
    let el := specElement lvl ty anchor cid spec
    let s2 : GenState := { s1 with elements := s1.elements ++ [(cid, el)] }
    let (rid, s3) := fresh s2
    let rel : Relationship := ⟨rid, cid, anchor, rdesc, ""⟩
    let s4 : GenState :=
      { s3 with elements :=
          updateAssoc s3.elements anchor (fun e => { e with children := e.children ++ [cid] }) }
    let (ids, rels, s5) := buildLoop lvl ty rdesc anchor rest s4
    (cid :: ids, rel :: rels, s5)

/-- `create_context_diagram` (lines 15-45): one fresh System element at
context level wrapped in a fresh single-element diagram; both are stored. -/
def create_context_diagram (system_name description : String) (s : GenState) :
    C4Diagram × GenState :=
  let (diagram_id, s1) := fresh s
  let (sys_id, s2) := fresh s1
  let system_element : C4Element :=
    { id := sys_id, name := system_name, type := "System", level := C4Level.context,
      description := description, technology := "", relationships := [], properties := [],
      parent_id := none, children := [] }
  let (t1, s3) := now s2
  let (t2, s4) := now s3
  let diagram : C4Diagram :=
    { id := diagram_id, name := system_name ++ " - Context", level := C4Level.context,
      elements := [sys_id], relationships := [], created_at := t1, updated_at := t2 }
  (diagram,
   { s4 with diagrams := s4.diagrams ++ [(diagram_id, diagram)],
             elements := s4.elements ++ [(sys_id, system_element)] })

/-- Shared shape of `create_container_diagram` (lines 47-102) and
`create_component_diagram` (lines 104-159), which are textually parallel
in the source: draw the diagram uuid, look up the anchor (raising
`ValueError` if absent), run the creation loop, and store a diagram whose
elements are the anchor followed by the new children.  The two source
functions are this definition at the instantiations given below. -/
def create_level_diagram (lvl : C4Level) (ty rdesc suffix : String) (anchor : Nat)
    (specs : List ElementSpec) (s : GenState) : Except String C4Diagram × GenState :=
  let (diagram_id, s1) := fresh s
  match dictGet anchor s1.elements with
  | none => (Except.error "anchor element not found", s1)
  | some anchor_element =>
    let (ids, rels, s2) := buildLoop lvl ty rdesc anchor specs s1
    let (t1, s3) := now s2
    let (t2, s4) := now s3
    let diagram : C4Diagram :=
      { id := diagram_id, name := anchor_element.name ++ suffix, level := lvl,
        elements := anchor :: ids, relationships := rels, created_at := t1, updated_at := t2 }
    (Except.ok diagram, { s4 with diagrams := s4.diagrams ++ [(diagram_id, diagram)] })

/-- `create_container_diagram`: Container level, kind "Container",
implicit edge "deployed on", diagram name suffix " - Containers". -/
def create_container_diagram (system_id : Nat) (containers : List ElementSpec) (s : GenState) :
    Except String C4Diagram × GenState :=
  create_level_diagram C4Level.container "Container" "deployed on" " - Containers"
    system_id containers s

/-- `create_component_diagram`: Component level, kind "Component",
implicit edge "part of", diagram name suffix " - Components". -/
def create_component_diagram (container_id : Nat) (components : List ElementSpec) (s : GenState) :
    Except String C4Diagram × GenState :=
  create_level_diagram C4Level.component "Component" "part of" " - Components"
    container_id components s

/-- `add_relationship` (lines 161-178): `False` and no change when the
diagram id is unknown; otherwise append a fresh relationship dict to the
list of the found diagram, refresh `updated_at`, and return `True`.  No
check at all on `from_` / `to_`. -/
def add_relationship (diagram_id from_ to_ : Nat) (description technology : String)
    (s : GenState) : Bool × GenState :=
  match dictGet diagram_id s.diagrams with
  | none => (false, s)
  | some _ =>
    let (rid, s1) := fresh s
    let (t, s2) := now s1
    let rel : Relationship := ⟨rid, from_, to_, description, technology⟩
    let upd := fun d => { d with relationships := d.relationships ++ [rel], updated_at := t }
    (true, { s2 with diagrams := updateAssoc s2.diagrams diagram_id upd })

/-- The `for diagram in self.diagrams.values()` search in `drill_down`
(lines 325-327): first diagram, in insertion order, whose element list is
non-empty and starts with the given element id. -/
def findDiagram (eid : Nat) : List (Nat × C4Diagram) → Option C4Diagram
  | [] => none
  | (_, d) :: rest => if d.elements.head? = some eid then some d else findDiagram eid rest

/-- `drill_down` (lines 318-347): `None` when the element is unknown or
has no children; otherwise reuse the first stored diagram whose first
element is the element, and if none exists build a fresh diagram from the
element plus those children that are present in the store (missing ones
are skipped; if all are missing, `None`). -/
def drill_down (element_id : Nat) (s : GenState) : Option C4Diagram × GenState :=
  match dictGet element_id s.elements with
  | none => (none, s)
  | some el =>
    if el.children = [] then (none, s)
    else
      match findDiagram element_id s.diagrams with
      | some d => (some d, s)
      | none =>
        let child_ids := el.children.filter (fun cid => (dictGet cid s.elements).isSome)
        if child_ids = [] then (none, s)
        else
          let (did, s1) := fresh s
          let (t1, s2) := now s1
          let (t2, s3) := now s2
          let d : C4Diagram :=
            { id := did, name := el.name ++ " - Details", level := next_level el.level,
              elements := element_id :: child_ids, relationships := [],
              created_at := t1, updated_at := t2 }
          (some d, { s3 with diagrams := s3.diagrams ++ [(did, d)] })

/-- One node line of `_generate_dot_format` (line 381). -/
def dotNodeLine (e : C4Element) : String :=
  "  \"" ++ toString e.id ++ "\" [label=\"" ++ e.name ++ "\\n" ++ e.type ++ "\"];"

/-- One edge line of `_generate_dot_format` (line 385); emitted straight
from the relationship dict, with no lookup of the endpoints. -/
def dotEdgeLine (r : Relationship) : String :=
  "  \"" ++ toString r.from_ ++ "\" -> \"" ++ toString r.to_ ++ "\" [label=\""
    ++ r.description ++ "\"];"

/-- The node lines of `_generate_dot_format`: one per diagram element
(the source dereferences the element objects held by the diagram; the
model observes them through the store, and on generator-produced states
every referenced id is present). -/
def dotNodeLines (s : GenState) (d : C4Diagram) : List String :=
  d.elements.filterMap (fun eid => (dictGet eid s.elements).map dotNodeLine)

/-- The edge lines of `_generate_dot_format`: one per relationship. -/
def dotEdgeLines (d : C4Diagram) : List String :=
  d.relationships.map dotEdgeLine

/-- `_generate_dot_format` (lines 373-388): header lines, node lines,
edge lines, closing brace, joined with newlines. -/
def generate_dot_format (s : GenState) (d : C4Diagram) : String :=
  String.intercalate "\n"
    (["digraph G \x7b", "  rankdir=TB;", "  node [shape=box, style=filled, fillcolor=lightblue];"]
      ++ dotNodeLines s d ++ dotEdgeLines d ++ ["\x7d"])

/-- `export_diagram` (lines 360-371) specialized to `format="dot"`: empty
string for an unknown diagram id, otherwise the DOT text.  (The `"json"`
and fallback branches call the pydantic `model_dump_json`, external library
serialization outside this embedding.) -/
def export_diagram_dot (diagram_id : Nat) (s : GenState) : String :=
  match dictGet diagram_id s.diagrams with
  | none => ""
  | some d => generate_dot_format s d

/-- The relationships that `generate_plotly_diagram` actually draws
(lines 240-250): those whose `from` and `to` ids both occur among the
elements of the diagram; all others are silently omitted. -/
def plotlyEdgeRels (d : C4Diagram) : List Relationship :=
  d.relationships.filter (fun r => d.elements.contains r.from_ && d.elements.contains r.to_)

/-- The radial layout of `generate_plotly_diagram` (lines 214-221): a
position assignment `pos` for a diagram of `n` elements is the one the
renderer computes exactly when element index `i` sits at angle
`2 * pi * i / n` on the circle of radius 3. -/
def layoutOk (n : Nat) (pos : Nat → ℝ × ℝ) : Prop :=
  ∀ i, i < n →
    pos i = (3 * Real.cos (2 * Real.pi * i / n), 3 * Real.sin (2 * Real.pi * i / n))

/-! ### Concrete scenario states

The "Payments" scenario of spec section 8: a context diagram, then a
container diagram with two containers.  With the fresh-id counter the
context diagram gets id 0, the system element id 1, the container diagram
id 2, the containers ids 3 and 5 (relationship ids 4 and 6). -/

/-- `createContextDiagram("Payments", "handles billing")` on a fresh generator. -/
def payCtx : C4Diagram × GenState :=
  create_context_diagram "Payments" "handles billing" initState

/-- The container specs `[{name:"API"}, {name:"Worker"}]`. -/
def paySpecs : List ElementSpec := [{ name := "API" }, { name := "Worker" }]

/-- `createContainerDiagram(systemId, paySpecs)` on the context state
(the system element id is 1). -/
def payCont : Except String C4Diagram × GenState :=
  create_container_diagram 1 paySpecs payCtx.2

/-- The system element as stored after the context call. -/
def paySysEl : C4Element := (dictGet 1 payCtx.2.elements).getD default

/-- The container diagram as stored (diagram id 2). -/
def payContD : C4Diagram := (dictGet 2 payCont.2.diagrams).getD default

/-! ### Association-list helper lemmas -/

theorem dictGet_mem {l : List (Nat × α)} {k : Nat} {v : α}
    (h : dictGet k l = some v) : (k, v) ∈ l := by
  induction l with
  | nil => simp [dictGet] at h
  | cons p rest ih =>
    obtain ⟨k2, v2⟩ := p
    by_cases hk : k = k2
    · subst hk
      simp [dictGet] at h
      subst h
      exact List.mem_cons_self _ _
    · simp [dictGet, hk] at h
      exact List.mem_cons_of_mem _ (ih h)

theorem dictGet_append_some {l l2 : List (Nat × α)} {k : Nat} {v : α}
    (h : dictGet k l = some v) : dictGet k (l ++ l2) = some v := by
  induction l with
  | nil => simp [dictGet] at h
  | cons p rest ih =>
    obtain ⟨k2, v2⟩ := p
    by_cases hk : k = k2
    · subst hk; simpa [dictGet] using h
    · simp [dictGet, hk] at h ⊢
      exact ih h

theorem dictGet_append_ne {l : List (Nat × α)} {k k2 : Nat} {v : α}
    (h : k ≠ k2) : dictGet k (l ++ [(k2, v)]) = dictGet k l := by
  induction l with
  | nil => simp [dictGet, h]
  | cons p rest ih =>
    obtain ⟨k3, v3⟩ := p
    by_cases hk : k = k3
    · subst hk; simp [dictGet]
    · simp [dictGet, hk, ih]

theorem dictGet_append_self {l : List (Nat × α)} {k : Nat} {v : α}
    (h : dictGet k l = none) : dictGet k (l ++ [(k, v)]) = some v := by
  induction l with
  | nil => simp [dictGet]
  | cons p rest ih =>
    obtain ⟨k3, v3⟩ := p
    by_cases hk : k = k3
    · simp [dictGet, hk] at h
    · simp [dictGet, hk] at h ⊢
      exact ih h

theorem dictGet_update_self {l : List (Nat × α)} {k : Nat} {f : α → α} :
    dictGet k (updateAssoc l k f) = (dictGet k l).map f := by
  induction l with
  | nil => simp [dictGet, updateAssoc]
  | cons p rest ih =>
    obtain ⟨k3, v3⟩ := p
    by_cases hk : k3 = k
    · subst hk; simp [dictGet, updateAssoc]
    · have hk2 : k ≠ k3 := fun h => hk h.symm
      simp [dictGet, updateAssoc, hk, hk2, ih]

theorem dictGet_update_ne {l : List (Nat × α)} {k k2 : Nat} {f : α → α}
    (h : k ≠ k2) : dictGet k (updateAssoc l k2 f) = dictGet k l := by
  induction l with
  | nil => simp [dictGet, updateAssoc]
  | cons p rest ih =>
    obtain ⟨k3, v3⟩ := p
    by_cases hk : k3 = k2
    · subst hk
      simp [dictGet, updateAssoc, h]
    · by_cases hk4 : k = k3
      · subst hk4; simp [dictGet, updateAssoc, hk]
      · simp [dictGet, updateAssoc, hk, hk4, ih]

theorem dictGet_none_of_bound {l : List (Nat × α)} {n : Nat}
    (hb : ∀ p ∈ l, p.1 < n) : dictGet n l = none := by
  cases h : dictGet n l with
  | none => rfl
  | some v => exact absurd (hb _ (dictGet_mem h)) (by omega)

theorem findDiagram_append_none {l l2 : List (Nat × C4Diagram)} {eid : Nat}
    (h : findDiagram eid l = none) :
    findDiagram eid (l ++ l2) = findDiagram eid l2 := by
  induction l with
  | nil => simp
  | cons p rest ih =>
    obtain ⟨k, d⟩ := p
    by_cases hd : d.elements.head? = some eid
    · simp [findDiagram, hd] at h
    · simp [findDiagram, hd] at h ⊢
      exact ih h

theorem findDiagram_append_some {l l2 : List (Nat × C4Diagram)} {eid : Nat} {d : C4Diagram}
    (h : findDiagram eid l = some d) :
    findDiagram eid (l ++ l2) = some d := by
  induction l with
  | nil => simp [findDiagram] at h
  | cons p rest ih =>
    obtain ⟨k, d2⟩ := p
    by_cases hd : d2.elements.head? = some eid
    · simp [findDiagram, hd] at h ⊢; exact h
    · simp [findDiagram, hd] at h ⊢
      exact ih h

theorem filterMap_length_of_isSome {l : List α} {f : α → Option β}
    (h : ∀ x ∈ l, (f x).isSome) : (l.filterMap f).length = l.length := by
  induction l with
  | nil => simp
  | cons x rest ih =>
    have hx := h x (List.mem_cons_self _ _)
    cases hfx : f x with
    | none => rw [hfx] at hx; simp at hx
    | some b =>
      have ih2 := ih (fun y hy => h y (List.mem_cons_of_mem _ hy))
      simp [List.filterMap_cons, hfx, ih2]

theorem forall₂_mem_right {R : α → β → Prop} {as : List α} {bs : List β}
    (h : List.Forall₂ R as bs) {b : β} (hb : b ∈ bs) : ∃ a ∈ as, R a b := by
  induction h with
  | nil => simp at hb
  | cons hr _ ih =>
    rcases List.mem_cons.mp hb with rfl | hb2
    · exact ⟨_, List.mem_cons_self _ _, hr⟩
    · obtain ⟨a, ha, har⟩ := ih hb2
      exact ⟨a, List.mem_cons_of_mem _ ha, har⟩

/-! ### Claim C4: createContainerDiagram fails iff the anchor is missing,
and a failing call leaves both stores untouched -/

/-- Claim C4: `create_container_diagram` returns an error exactly when
`system_id` does not resolve in the element store (the source raises
`ValueError`, the `NotFoundError` of the spec), and on that error the element
store and the diagram store are completely unchanged. -/
theorem c4_container_notfound (s : GenState) (sid : Nat) (specs : List ElementSpec) :
    ((create_container_diagram sid specs s).1.isOk = (dictGet sid s.elements).isSome) ∧
    (dictGet sid s.elements = none →
      (create_container_diagram sid specs s).2.elements = s.elements ∧
      (create_container_diagram sid specs s).2.diagrams = s.diagrams) := by
  unfold create_container_diagram create_level_diagram fresh
  cases h : dictGet sid s.elements with
  | none => simp [h, Except.isOk, Except.toBool]
  | some el =>
    rcases hb : buildLoop C4Level.container "Container" "deployed on" sid specs
        { s with nextId := s.nextId + 1 } with ⟨ids, rels, s2⟩
    simp [h, hb, now, Except.isOk, Except.toBool]

/-- Witness for C4 at a concrete input: id 99 is unknown after the
context call, the call fails and both stores are unchanged. -/
theorem c4_container_notfound_witness :
    (create_container_diagram 99 [] payCtx.2).2.elements = payCtx.2.elements ∧
    (create_container_diagram 99 [] payCtx.2).2.diagrams = payCtx.2.diagrams ∧
    (create_container_diagram 99 [] payCtx.2).1.isOk = false := by
  have h := c4_container_notfound payCtx.2 99 []
  have hn : dictGet 99 payCtx.2.elements = none := by rfl
  refine ⟨(h.2 hn).1, (h.2 hn).2, ?_⟩
  rw [h.1, hn]
  rfl

/-! ### Claim C7: add_relationship -/

/-- Claim C7: `add_relationship` returns `false` and changes nothing when
the diagram id is unknown; otherwise it returns `true`, leaves the
element store alone, appends exactly the one new relationship (with the
given endpoints, description and technology, and no existence check on
the endpoints) to that diagram, refreshes its `updated_at` to the call
time, and leaves every other diagram unchanged. -/
theorem c7_add_relationship (s : GenState) (did fid tid : Nat) (desc tech : String) :
    (dictGet did s.diagrams = none → add_relationship did fid tid desc tech s = (false, s)) ∧
    (∀ d, dictGet did s.diagrams = some d →
      (add_relationship did fid tid desc tech s).1 = true ∧
      (add_relationship did fid tid desc tech s).2.elements = s.elements ∧
      dictGet did (add_relationship did fid tid desc tech s).2.diagrams =
        some { d with relationships := d.relationships ++ [⟨s.nextId, fid, tid, desc, tech⟩], updated_at := s.clock } ∧
      (∀ k, k ≠ did → dictGet k (add_relationship did fid tid desc tech s).2.diagrams =
        dictGet k s.diagrams)) := by
  constructor
  · intro h
    simp [add_relationship, h]
  · intro d hd
    simp only [add_relationship, hd, fresh, now, and_true, true_and, eq_self_iff_true]
    refine ⟨?_, ?_⟩
    · rw [dictGet_update_self, hd]
      rfl
    · intro k hk
      exact dictGet_update_ne hk

/-- Witness for C7 at a concrete input: adding a "uses" edge with
endpoints 999/998 (present nowhere) to the stored container diagram
succeeds and appends exactly that relationship. -/
theorem c7_add_relationship_witness :
    (add_relationship 2 999 998 "uses" "" payCont.2).1 = true ∧
    dictGet 2 (add_relationship 2 999 998 "uses" "" payCont.2).2.diagrams =
      some { payContD with relationships := payContD.relationships ++ [⟨payCont.2.nextId, 999, 998, "uses", ""⟩], updated_at := payCont.2.clock } ∧
    payCont.2.nextId = 7 ∧ payCont.2.clock = 4 := by
  have h := (c7_add_relationship payCont.2 2 999 998 "uses" "").2 payContD (by rfl)
  exact ⟨h.1, h.2.2.1, rfl, rfl⟩

/-! ### Claim C6: drill_down is idempotent -/

/-- Claim C6: calling `drill_down` twice in succession with no
intervening mutation gives the same result (hence the same diagram
identifier) and the second call leaves the state — element store and
diagram store included — exactly as the first call left it. -/
theorem c6_drill_down_idempotent (eid : Nat) (s : GenState) :
    drill_down eid ((drill_down eid s).2) = drill_down eid s := by
  rcases h1 : dictGet eid s.elements with _ | el
  · simp [drill_down, h1]
  · by_cases h2 : el.children = []
    · simp [drill_down, h1, h2]
    · rcases h3 : findDiagram eid s.diagrams with _ | d
      · by_cases h4 : el.children.filter (fun cid => (dictGet cid s.elements).isSome) = []
        · simp [drill_down, h1, h2, h3, h4]
        · simp [drill_down, h1, h2, h3, h4, fresh, now, findDiagram_append_none h3,
            findDiagram]
      · simp [drill_down, h1, h2, h3]

/-! ### Claim C5: when drill_down returns None, and child skipping -/

/-- Claim C5 (amended): `drill_down` returns `None` exactly when the
element is missing, or its `children` list is empty, or no stored diagram
starts with the element AND every listed child id is missing from the
element store; and whenever it builds a diagram, the missing children are
silently skipped (the built diagram contains the element followed by
exactly the children still present, in order). -/
theorem c5_drill_down_none_iff (s : GenState) (eid : Nat) :
    ((drill_down eid s).1 = none ↔
      ∀ el, dictGet eid s.elements = some el →
        (el.children = [] ∨ (findDiagram eid s.diagrams = none ∧
          el.children.filter (fun cid => (dictGet cid s.elements).isSome) = []))) ∧
    (∀ el d, dictGet eid s.elements = some el → findDiagram eid s.diagrams = none →
      (drill_down eid s).1 = some d →
      d.elements = eid :: el.children.filter (fun cid => (dictGet cid s.elements).isSome)) := by
  rcases h1 : dictGet eid s.elements with _ | el
  · refine ⟨⟨fun _ el2 hel => ?_, fun _ => by simp [drill_down, h1]⟩, fun el2 d hel => ?_⟩
    · cases hel
    · cases hel
  · by_cases h2 : el.children = []
    · refine ⟨⟨fun _ el2 hel => ?_, fun _ => by simp [drill_down, h1, h2]⟩,
        fun el2 d hel hf hres => ?_⟩
      · exact Or.inl ((Option.some.inj hel) ▸ h2)
      · simp [drill_down, h1, h2] at hres
    · rcases h3 : findDiagram eid s.diagrams with _ | d0
      · by_cases h4 : el.children.filter (fun cid => (dictGet cid s.elements).isSome) = []
        · refine ⟨⟨fun _ el2 hel => ?_, fun _ => by simp [drill_down, h1, h2, h3, h4]⟩,
            fun el2 d hel hf hres => ?_⟩
          · exact Or.inr ⟨rfl, (Option.some.inj hel) ▸ h4⟩
          · simp [drill_down, h1, h2, h3, h4, fresh, now] at hres
        · refine ⟨⟨fun habs => ?_, fun hR => ?_⟩, fun el2 d hel hf hres => ?_⟩
          · simp [drill_down, h1, h2, h3, h4, fresh, now] at habs
          · rcases hR el rfl with hc | ⟨_, hfil⟩
            · exact absurd hc h2
            · exact absurd hfil h4
          · have hel2 : el2 = el := (Option.some.inj hel).symm
            subst hel2
            simp [drill_down, h1, h2, h3, h4, fresh, now] at hres
            rw [← hres]
      · refine ⟨⟨fun habs => ?_, fun hR => ?_⟩, fun el2 d hel hf hres => ?_⟩
        · simp [drill_down, h1, h2, h3] at habs
        · rcases hR el rfl with hc | ⟨hfn, _⟩
          · exact absurd hc h2
          · cases hfn
        · cases hf

/-- A handcrafted store for the C5 edge policy: element 1 lists children 2
(present) and 99 (absent).  The generator itself never produces a store
with dangling child ids, so this is the "should not normally happen but
is tolerated" situation the claim describes. -/
def skipEl : C4Element :=
  { id := 1, name := "parent", type := "System", level := C4Level.context, description := "",
    technology := "", relationships := [], properties := [], parent_id := none,
    children := [2, 99] }

/-- The present child of `skipEl`. -/
def presentChild : C4Element :=
  { id := 2, name := "kid", type := "Container", level := C4Level.container, description := "",
    technology := "", relationships := [], properties := [], parent_id := some 1,
    children := [] }

/-- Store with one present and one dangling child id. -/
def skipState : GenState := ⟨[], [(1, skipEl), (2, presentChild)], 100, 0⟩

/-- The diagram `drill_down` builds on `skipState`. -/
def skipD : C4Diagram := ((drill_down 1 skipState).1).getD default

/-- Witness for C5 at a concrete input: on `skipState`, drilling into
element 1 builds a diagram and the dangling child 99 is skipped: the
elements of the diagram are `[1, 2]`. -/
theorem c5_drill_down_none_iff_witness :
    (drill_down 1 skipState).1 = some skipD ∧
    skipD.elements = 1 :: skipEl.children.filter (fun cid => (dictGet cid skipState.elements).isSome) ∧
    skipD.elements = [1, 2] := by
  have h := (c5_drill_down_none_iff skipState 1).2 skipEl skipD (by rfl) (by rfl) (by rfl)
  exact ⟨rfl, h, by decide⟩

/-- A handcrafted store where every child id of element 1 is dangling
and no stored diagram starts with element 1. -/
def allMissEl : C4Element :=
  { id := 1, name := "parent", type := "System", level := C4Level.context, description := "",
    technology := "", relationships := [], properties := [], parent_id := none,
    children := [99] }

/-- Store for the C5 counterexample. -/
def allMissState : GenState := ⟨[], [(1, allMissEl)], 100, 0⟩

/-- Counterexample to C5 as stated: element 1 exists and its `children`
list is non-empty, yet `drill_down` returns `None` (because every listed
child is missing and there is no diagram to reuse) — so "returns None
exactly when the element does not exist or its children list is empty"
is false. -/
theorem c5_counterexample :
    (drill_down 1 allMissState).1 = none ∧
    dictGet 1 allMissState.elements = some allMissEl ∧
    allMissEl.children ≠ [] := by
  exact ⟨rfl, rfl, by decide⟩

/-! ### Characterization of the creation loop (used by claims C3 and C2) -/

theorem updateAssoc_keys {l : List (Nat × α)} {k : Nat} {f : α → α} :
    ∀ p ∈ updateAssoc l k f, ∃ q ∈ l, p.1 = q.1 := by
  induction l with
  | nil => intro p hp; simp [updateAssoc] at hp
  | cons q0 rest ih =>
    obtain ⟨k2, v⟩ := q0
    intro p hp
    by_cases hk : k2 = k
    · subst hk
      simp only [updateAssoc, if_true, eq_self_iff_true, List.mem_cons] at hp
      rcases hp with rfl | hp2
      · exact ⟨(k2, v), List.mem_cons_self _ _, rfl⟩
      · exact ⟨p, List.mem_cons_of_mem _ hp2, rfl⟩
    · simp only [updateAssoc, hk, if_false, List.mem_cons] at hp
      rcases hp with rfl | hp2
      · exact ⟨(k2, v), List.mem_cons_self _ _, rfl⟩
      · obtain ⟨q, hq, hpq⟩ := ih p hp2
        exact ⟨q, List.mem_cons_of_mem _ hq, hpq⟩

/-- One unfolding step of `buildLoop`, with the intermediate state written
out explicitly. -/
theorem buildLoop_cons (lvl : C4Level) (ty rdesc : String) (anchor : Nat)
    (spec : ElementSpec) (rest : List ElementSpec) (s : GenState) :
    buildLoop lvl ty rdesc anchor (spec :: rest) s =
      (fun res => (s.nextId :: res.1,
          (⟨s.nextId + 1, s.nextId, anchor, rdesc, ""⟩ : Relationship) :: res.2.1, res.2.2))
        (buildLoop lvl ty rdesc anchor rest
          (GenState.mk s.diagrams
            (updateAssoc (s.elements ++ [(s.nextId, specElement lvl ty anchor s.nextId spec)])
              anchor (fun e => { e with children := e.children ++ [s.nextId] }))
            (s.nextId + 1 + 1) s.clock)) := rfl

/-- Full characterization of `buildLoop` over a store whose keys are all
below the fresh counter (always true of generator states, mirroring uuid
freshness): it returns one fresh element id per spec in request order,
pairs each new id with a stored element built from its spec, pairs each
new id with one implicit relationship in the same order, appends exactly
the new ids to the `children` of the anchor, and touches nothing else. -/
theorem buildLoop_spec (lvl : C4Level) (ty rdesc : String) (anchor : Nat) :
    ∀ (specs : List ElementSpec) (s : GenState) (el0 : C4Element),
    dictGet anchor s.elements = some el0 →
    (∀ p ∈ s.elements, p.1 < s.nextId) →
    ∃ ids rels s2,
      buildLoop lvl ty rdesc anchor specs s = (ids, rels, s2) ∧
      s2.diagrams = s.diagrams ∧
      s2.clock = s.clock ∧
      s.nextId ≤ s2.nextId ∧
      (∀ p ∈ s2.elements, p.1 < s2.nextId) ∧
      (∀ cid ∈ ids, s.nextId ≤ cid ∧ cid < s2.nextId) ∧
      dictGet anchor s2.elements = some { el0 with children := el0.children ++ ids } ∧
      (∀ k, k ≠ anchor → k ∉ ids → dictGet k s2.elements = dictGet k s.elements) ∧
      List.Forall₂ (fun spec cid => ∃ c, dictGet cid s2.elements = some c ∧ c.id = cid ∧
        c.name = spec.name ∧ c.type = ty ∧ c.level = lvl ∧
        c.description = spec.description.getD "" ∧ c.technology = spec.technology.getD "" ∧
        c.parent_id = some anchor ∧ c.children = []) specs ids ∧
      List.Forall₂ (fun cid r => r.from_ = cid ∧ r.to_ = anchor ∧
        r.description = rdesc ∧ r.technology = "") ids rels := by
  intro specs
  induction specs with
  | nil =>
    intro s el0 ha hb
    refine ⟨[], [], s, rfl, rfl, rfl, le_refl _, hb, by simp, ?_, fun k _ _ => rfl,
      List.Forall₂.nil, List.Forall₂.nil⟩
    simpa using ha
  | cons spec rest ih =>
    intro s el0 ha hb
    have hanchor_lt : anchor < s.nextId := hb _ (dictGet_mem ha)
    have hanchor_ne : anchor ≠ s.nextId := by omega
    have hcid_none : dictGet s.nextId s.elements = none := dictGet_none_of_bound hb
    have ha4 : dictGet anchor
        (updateAssoc (s.elements ++ [(s.nextId, specElement lvl ty anchor s.nextId spec)])
          anchor (fun e => { e with children := e.children ++ [s.nextId] })) =
        some { el0 with children := el0.children ++ [s.nextId] } := by
      rw [dictGet_update_self, dictGet_append_ne hanchor_ne, ha]
      rfl
    have hb4 : ∀ p ∈ updateAssoc
        (s.elements ++ [(s.nextId, specElement lvl ty anchor s.nextId spec)])
        anchor (fun e => { e with children := e.children ++ [s.nextId] }),
        p.1 < s.nextId + 1 + 1 := by
      intro p hp
      obtain ⟨q, hq, hpq⟩ := updateAssoc_keys p hp
      rcases List.mem_append.mp hq with hq1 | hq2
      · have := hb q hq1; omega
      · simp only [List.mem_singleton] at hq2
        simp only [hpq, hq2]
        omega
    obtain ⟨ids, rels, s5, heq, hdiag, hclock, hmono, hb5, hidsb, hanch, hframe, hf2, hr2⟩ :=
      ih (GenState.mk s.diagrams
            (updateAssoc (s.elements ++ [(s.nextId, specElement lvl ty anchor s.nextId spec)])
              anchor (fun e => { e with children := e.children ++ [s.nextId] }))
            (s.nextId + 1 + 1) s.clock)
        { el0 with children := el0.children ++ [s.nextId] } ha4 hb4
    have hdiag2 : s5.diagrams = s.diagrams := hdiag
    have hclock2 : s5.clock = s.clock := hclock
    have hmono2 : s.nextId + 1 + 1 ≤ s5.nextId := hmono
    have hidsb2 : ∀ cid ∈ ids, s.nextId + 1 + 1 ≤ cid ∧ cid < s5.nextId := hidsb
    have hframe2 : ∀ k, k ≠ anchor → k ∉ ids → dictGet k s5.elements =
        dictGet k (updateAssoc (s.elements ++ [(s.nextId, specElement lvl ty anchor s.nextId spec)])
          anchor (fun e => { e with children := e.children ++ [s.nextId] })) := hframe
    have hcid_notin : s.nextId ∉ ids := by
      intro hmem
      have := (hidsb2 _ hmem).1
      omega
    have hcid_elem : dictGet s.nextId s5.elements =
        some (specElement lvl ty anchor s.nextId spec) := by
      rw [hframe2 _ (Ne.symm hanchor_ne) hcid_notin]
      rw [dictGet_update_ne (Ne.symm hanchor_ne), dictGet_append_self hcid_none]
    refine ⟨s.nextId :: ids, (⟨s.nextId + 1, s.nextId, anchor, rdesc, ""⟩ : Relationship) :: rels,
      s5, ?_, hdiag2, hclock2, ?_, hb5, ?_, ?_, ?_, ?_, ?_⟩
    · rw [buildLoop_cons, heq]
    · omega
    · intro cid hcid
      rcases List.mem_cons.mp hcid with rfl | hmem
      · exact ⟨le_refl _, by omega⟩
      · have := hidsb2 _ hmem
        exact ⟨by omega, this.2⟩
    · rw [hanch]
      congr 1
      simp [List.append_assoc]
    · intro k hka hkids
      have hk1 : k ∉ ids := fun hm => hkids (List.mem_cons_of_mem _ hm)
      have hk2 : k ≠ s.nextId := fun he => hkids (he ▸ List.mem_cons_self _ _)
      rw [hframe2 k hka hk1]
      rw [dictGet_update_ne hka, dictGet_append_ne hk2]
    · exact List.Forall₂.cons
        ⟨specElement lvl ty anchor s.nextId spec, hcid_elem, rfl, rfl, rfl, rfl, rfl, rfl, rfl, rfl⟩
        hf2
    · exact List.Forall₂.cons ⟨rfl, rfl, rfl, rfl⟩ hr2

/-- The diagram record built at the end of `create_level_diagram`
(helper for stating its unfolding). -/
def levelDiagram (lvl : C4Level) (suffix : String) (anchor did : Nat) (ae : C4Element)
    (ids : List Nat) (rels : List Relationship) (t : Nat) : C4Diagram :=
  { id := did, name := ae.name ++ suffix, level := lvl, elements := anchor :: ids,
    relationships := rels, created_at := t, updated_at := t + 1 }

/-- One unfolding of `create_level_diagram` with the post-loop state
written out explicitly. -/
theorem create_level_unfold (lvl : C4Level) (ty rdesc suffix : String) (anchor : Nat)
    (specs : List ElementSpec) (s : GenState) :
    create_level_diagram lvl ty rdesc suffix anchor specs s =
      match dictGet anchor s.elements with
      | none => (Except.error "anchor element not found", { s with nextId := s.nextId + 1 })
      | some ae =>
        (fun res =>
          (Except.ok (levelDiagram lvl suffix anchor s.nextId ae res.1 res.2.1 res.2.2.clock),
           GenState.mk
             (res.2.2.diagrams
               ++ [(s.nextId, levelDiagram lvl suffix anchor s.nextId ae res.1 res.2.1 res.2.2.clock)])
             res.2.2.elements res.2.2.nextId (res.2.2.clock + 1 + 1)))
          (buildLoop lvl ty rdesc anchor specs { s with nextId := s.nextId + 1 }) := rfl

/-! ### Claim C3: shape of a successful createContainerDiagram -/

/-- Claim C3: on any state whose store keys sit below the fresh counter
(uuid freshness) and any existing anchor element, the element sequence of
the returned diagram is the anchor followed by one new Container-level
element per spec in request order, its relationship sequence pairs up
with the new containers in the same order as "deployed on" edges pointing
at the anchor, and the `children` list of the anchor has grown by exactly the
new ids, appended in request order. -/
theorem c3_create_container (s : GenState) (sid : Nat) (specs : List ElementSpec)
    (sysEl : C4Element)
    (h : dictGet sid s.elements = some sysEl)
    (hb : ∀ p ∈ s.elements, p.1 < s.nextId) :
    ∃ d s2, create_container_diagram sid specs s = (Except.ok d, s2) ∧
      d.elements.head? = some sid ∧
      List.Forall₂ (fun spec cid => ∃ c, dictGet cid s2.elements = some c ∧
        c.name = spec.name ∧ c.type = "Container" ∧ c.level = C4Level.container ∧
        c.parent_id = some sid) specs d.elements.tail ∧
      List.Forall₂ (fun cid r => r.from_ = cid ∧ r.to_ = sid ∧ r.description = "deployed on")
        d.elements.tail d.relationships ∧
      dictGet sid s2.elements =
        some { sysEl with children := sysEl.children ++ d.elements.tail } := by
  obtain ⟨ids, rels, s5, heq, hdiag, hclock, hmono, hb5, hidsb, hanch, hframe, hf2, hr2⟩ :=
    buildLoop_spec C4Level.container "Container" "deployed on" sid specs
      { s with nextId := s.nextId + 1 } sysEl h (fun p hp => Nat.lt_succ_of_lt (hb p hp))
  refine ⟨levelDiagram C4Level.container " - Containers" sid s.nextId sysEl ids rels s5.clock,
    GenState.mk
      (s5.diagrams
        ++ [(s.nextId, levelDiagram C4Level.container " - Containers" sid s.nextId sysEl ids rels s5.clock)])
      s5.elements s5.nextId (s5.clock + 1 + 1),
    ?_, rfl, ?_, ?_, ?_⟩
  · unfold create_container_diagram
    rw [create_level_unfold, h, heq]
  · exact hf2.imp (fun a b hab => by
      obtain ⟨c2, hc2, hid2, hn, hty2, hl, hd2, ht, hp, hch⟩ := hab
      exact ⟨c2, hc2, hn, hty2, hl, hp⟩)
  · exact hr2.imp (fun a b hab => ⟨hab.1, hab.2.1, hab.2.2.1⟩)
  · exact hanch

/-- Witness for C3 at a concrete input: the "Payments" scenario, anchor
element 1 and the API/Worker specs. -/
theorem c3_create_container_witness :
    ∃ d s2, create_container_diagram 1 paySpecs payCtx.2 = (Except.ok d, s2) ∧
      d.elements.head? = some 1 ∧
      List.Forall₂ (fun spec cid => ∃ c, dictGet cid s2.elements = some c ∧
        c.name = spec.name ∧ c.type = "Container" ∧ c.level = C4Level.container ∧
        c.parent_id = some 1) paySpecs d.elements.tail ∧
      List.Forall₂ (fun cid r => r.from_ = cid ∧ r.to_ = 1 ∧ r.description = "deployed on")
        d.elements.tail d.relationships ∧
      dictGet 1 s2.elements =
        some { paySysEl with children := paySysEl.children ++ d.elements.tail } :=
  c3_create_container payCtx.2 1 paySpecs paySysEl (by rfl) (by decide)

/-! ### Claim C2: the parent/child/level invariant -/

/-- Store well-formedness that the generator maintains: every stored
entry carries its key as its `id`, and every key is below the fresh
counter (the model rendering of uuid freshness). -/
def StoreInv (s : GenState) : Prop :=
  ∀ p ∈ s.elements, (p.2).id = p.1 ∧ p.1 < s.nextId

/-- The parent/child invariant of spec section 3: every child id listed
by a stored element resolves to a stored element whose level is exactly
one level deeper and whose `parent_id` is the id of the parent. -/
def ChildInv (s : GenState) : Prop :=
  ∀ k e, dictGet k s.elements = some e → ∀ cid ∈ e.children,
    ∃ c, dictGet cid s.elements = some c ∧
      levelIdx c.level = levelIdx e.level + 1 ∧ c.parent_id = some e.id

theorem updateAssoc_mem {l : List (Nat × α)} {k : Nat} {f : α → α} :
    ∀ p ∈ updateAssoc l k f, p ∈ l ∨ ∃ q ∈ l, p.1 = q.1 ∧ p.2 = f q.2 := by
  induction l with
  | nil => intro p hp; simp [updateAssoc] at hp
  | cons q0 rest ih =>
    obtain ⟨k2, v⟩ := q0
    intro p hp
    by_cases hk : k2 = k
    · subst hk
      simp only [updateAssoc, if_true, eq_self_iff_true, List.mem_cons] at hp
      rcases hp with rfl | hp2
      · exact Or.inr ⟨(k2, v), List.mem_cons_self _ _, rfl, rfl⟩
      · exact Or.inl (List.mem_cons_of_mem _ hp2)
    · simp only [updateAssoc, hk, if_false, List.mem_cons] at hp
      rcases hp with rfl | hp2
      · exact Or.inl (List.mem_cons_self _ _)
      · rcases ih p hp2 with h | ⟨q, hq, hq1, hq2⟩
        · exact Or.inl (List.mem_cons_of_mem _ h)
        · exact Or.inr ⟨q, List.mem_cons_of_mem _ hq, hq1, hq2⟩

/-- The creation loop stores the fresh id inside each new element and
only ever appends to `children`, so the entry-id/key agreement survives. -/
theorem buildLoop_ids_match (lvl : C4Level) (ty rdesc : String) (anchor : Nat) :
    ∀ (specs : List ElementSpec) (s : GenState),
    (∀ p ∈ s.elements, (p.2).id = p.1) →
    ∀ p ∈ (buildLoop lvl ty rdesc anchor specs s).2.2.elements, (p.2).id = p.1 := by
  intro specs
  induction specs with
  | nil => intro s hI p hp; exact hI p hp
  | cons spec rest ih =>
    intro s hI
    rw [buildLoop_cons]
    refine ih _ ?_
    intro p hp
    rcases updateAssoc_mem p hp with hmem | ⟨q, hq, hq1, hq2⟩
    · rcases List.mem_append.mp hmem with h1 | h2
      · exact hI p h1
      · simp only [List.mem_singleton] at h2
        rw [h2]
        rfl
    · have hqid : (q.2).id = q.1 := by
        rcases List.mem_append.mp hq with h1 | h2
        · exact hI q h1
        · simp only [List.mem_singleton] at h2
          rw [h2]
          rfl
      rw [hq2, hq1]
      exact hqid

/-- Invariant preservation when an operation leaves the element store
untouched and only grows the fresh counter. -/
theorem inv_of_same_elements {s s2 : GenState} (he : s2.elements = s.elements)
    (hm : s.nextId ≤ s2.nextId) (hS : StoreInv s) (hC : ChildInv s) :
    StoreInv s2 ∧ ChildInv s2 := by
  constructor
  · intro p hp
    rw [he] at hp
    have := hS p hp
    exact ⟨this.1, by omega⟩
  · intro k e hk cid hcid
    rw [he] at hk
    obtain ⟨c, hc, h1, h2⟩ := hC k e hk cid hcid
    exact ⟨c, by rw [he]; exact hc, h1, h2⟩

/-- The System element built by `create_context_diagram` (helper for
stating its unfolding). -/
def contextElement (n d : String) (sysid : Nat) : C4Element :=
  { id := sysid, name := n, type := "System", level := C4Level.context,
    description := d, technology := "", relationships := [], properties := [],
    parent_id := none, children := [] }

/-- The diagram built by `create_context_diagram` (helper for stating
its unfolding). -/
def contextDiagram (n : String) (did sysid t : Nat) : C4Diagram :=
  { id := did, name := n ++ " - Context", level := C4Level.context, elements := [sysid],
    relationships := [], created_at := t, updated_at := t + 1 }

/-- One unfolding of `create_context_diagram` with the final state
written out explicitly. -/
theorem create_context_unfold (n d : String) (s : GenState) :
    create_context_diagram n d s =
      (contextDiagram n s.nextId (s.nextId + 1) s.clock,
       GenState.mk (s.diagrams ++ [(s.nextId, contextDiagram n s.nextId (s.nextId + 1) s.clock)])
         (s.elements ++ [(s.nextId + 1, contextElement n d (s.nextId + 1))])
         (s.nextId + 1 + 1) (s.clock + 1 + 1)) := rfl

/-- `create_context_diagram` preserves both invariants: the new System
element has no children and a fresh key equal to its id. -/
theorem create_context_preserves (n d : String) (s : GenState)
    (hS : StoreInv s) (hC : ChildInv s) :
    StoreInv (create_context_diagram n d s).2 ∧ ChildInv (create_context_diagram n d s).2 := by
  rw [create_context_unfold]
  constructor
  · intro p hp
    simp only [List.mem_append, List.mem_singleton] at hp
    rcases hp with h1 | h2
    · have := hS p h1
      exact ⟨this.1, by simp only []; omega⟩
    · rw [h2]
      exact ⟨rfl, by simp only []; omega⟩
  · intro k e hk cid hcid
    simp only [] at hk
    by_cases hke : k = s.nextId + 1
    · subst hke
      rw [dictGet_append_self (dictGet_none_of_bound (fun p hp => by
          have := (hS p hp).2; omega))] at hk
      have he : e = contextElement n d (s.nextId + 1) := (Option.some.inj hk).symm
      rw [he] at hcid
      simp [contextElement] at hcid
    · rw [dictGet_append_ne hke] at hk
      obtain ⟨c, hc, h1, h2⟩ := hC k e hk cid hcid
      have hcne : cid ≠ s.nextId + 1 := by
        have := (hS _ (dictGet_mem hc)).2
        omega
      exact ⟨c, by rw [dictGet_append_ne hcne]; exact hc, h1, h2⟩

/-- `add_relationship` never touches the element store and only grows
the fresh counter. -/
theorem add_relationship_elements (did fid tid : Nat) (desc tech : String) (s : GenState) :
    (add_relationship did fid tid desc tech s).2.elements = s.elements ∧
    s.nextId ≤ (add_relationship did fid tid desc tech s).2.nextId := by
  cases h : dictGet did s.diagrams with
  | none => simp [add_relationship, h]
  | some d =>
    simp only [add_relationship, h, fresh, now]
    exact ⟨trivial, Nat.le_succ _⟩

/-- `drill_down` never touches the element store and only grows the
fresh counter. -/
theorem drill_down_elements (eid : Nat) (s : GenState) :
    (drill_down eid s).2.elements = s.elements ∧
    s.nextId ≤ (drill_down eid s).2.nextId := by
  rcases h1 : dictGet eid s.elements with _ | el
  · simp [drill_down, h1]
  · by_cases h2 : el.children = []
    · simp [drill_down, h1, h2]
    · rcases h3 : findDiagram eid s.diagrams with _ | d
      · by_cases h4 : el.children.filter (fun cid => (dictGet cid s.elements).isSome) = []
        · simp [drill_down, h1, h2, h3, h4]
        · simp only [drill_down, h1, h2, h3, h4, fresh, now, if_neg]
          exact ⟨rfl, Nat.le_succ _⟩
      · simp [drill_down, h1, h2, h3]

/-- `create_level_diagram` preserves both invariants provided the new
level of the new elements is exactly one deeper than the level of the anchor. -/
theorem create_level_preserves (lvl : C4Level) (ty rdesc suffix : String) (anchor : Nat)
    (specs : List ElementSpec) (s : GenState) (hS : StoreInv s) (hC : ChildInv s)
    (hlvl : ∀ el, dictGet anchor s.elements = some el → levelIdx lvl = levelIdx el.level + 1) :
    StoreInv (create_level_diagram lvl ty rdesc suffix anchor specs s).2 ∧
    ChildInv (create_level_diagram lvl ty rdesc suffix anchor specs s).2 := by
  rw [create_level_unfold]
  cases ha : dictGet anchor s.elements with
  | none =>
    refine ⟨fun p hp => ?_, fun k e hk cid hcid => ?_⟩
    · exact ⟨(hS p hp).1, Nat.lt_succ_of_lt ((hS p hp).2)⟩
    · obtain ⟨c, hc, h1, h2⟩ := hC k e hk cid hcid
      exact ⟨c, hc, h1, h2⟩
  | some ae =>
    obtain ⟨ids, rels, s5, heq, hdiag, hclock, hmono, hb5, hidsb, hanch, hframe, hf2, hr2⟩ :=
      buildLoop_spec lvl ty rdesc anchor specs { s with nextId := s.nextId + 1 } ae ha
        (fun p hp => Nat.lt_succ_of_lt ((hS p hp).2))
    have hidsb2 : ∀ cid ∈ ids, s.nextId + 1 ≤ cid ∧ cid < s5.nextId := hidsb
    have hframe2 : ∀ k, k ≠ anchor → k ∉ ids →
        dictGet k s5.elements = dictGet k s.elements := hframe
    have haeid : ae.id = anchor := (hS _ (dictGet_mem ha)).1
    have hlvl2 : levelIdx lvl = levelIdx ae.level + 1 := hlvl ae ha
    have hold_notin : ∀ cid (c : C4Element), dictGet cid s.elements = some c → cid ∉ ids := by
      intro cid c hc hm
      have hb2 := (hS _ (dictGet_mem hc)).2
      have := (hidsb2 cid hm).1
      omega
    have hids_match : ∀ p ∈ s5.elements, (p.2).id = p.1 := by
      have hh := buildLoop_ids_match lvl ty rdesc anchor specs
        { s with nextId := s.nextId + 1 } (fun p hp => (hS p hp).1)
      rw [heq] at hh
      exact hh
    rw [heq]
    constructor
    · intro p hp
      have hp2 : p ∈ s5.elements := hp
      exact ⟨hids_match p hp2, hb5 p hp2⟩
    · intro k e hk cid hcid
      have hk2 : dictGet k s5.elements = some e := hk
      by_cases hka : k = anchor
      · subst hka
        have he : e = { ae with children := ae.children ++ ids } :=
          Option.some.inj (hk2.symm.trans hanch)
        subst he
        simp only [List.mem_append] at hcid
        rcases hcid with hcid1 | hcid2
        · obtain ⟨c, hc, h1, h2⟩ := hC k ae ha cid hcid1
          by_cases hcida : cid = k
          · subst hcida
            have hcae : c = ae := Option.some.inj (hc.symm.trans ha)
            rw [hcae] at h1
            exact absurd h1 (by omega)
          · have hcni : cid ∉ ids := hold_notin cid c hc
            refine ⟨c, ?_, h1, h2⟩
            rw [hframe2 cid hcida hcni]
            exact hc
        · obtain ⟨spec, hspec, c, hc5, hcid_id, hn, hty2, hl, hd2, ht, hp2, hch⟩ :=
            forall₂_mem_right hf2 hcid2
          refine ⟨c, hc5, ?_, ?_⟩
          · rw [hl, hlvl2]
          · rw [hp2, haeid]
      · by_cases hkin : k ∈ ids
        · obtain ⟨spec, hspec, c, hc5, hcid_id, hn, hty2, hl, hd2, ht, hp2, hch⟩ :=
            forall₂_mem_right hf2 hkin
          have he : e = c := Option.some.inj (hk2.symm.trans hc5)
          rw [he, hch] at hcid
          simp at hcid
        · rw [hframe2 k hka hkin] at hk2
          obtain ⟨c, hc, h1, h2⟩ := hC k e hk2 cid hcid
          by_cases hcida : cid = anchor
          · subst hcida
            have hcae : c = ae := Option.some.inj (hc.symm.trans ha)
            refine ⟨{ ae with children := ae.children ++ ids }, hanch, ?_, ?_⟩
            · show levelIdx ae.level = levelIdx e.level + 1
              rw [← hcae]
              exact h1
            · show ae.parent_id = some e.id
              rw [← hcae]
              exact h2
          · have hcni : cid ∉ ids := hold_notin cid c hc
            refine ⟨c, ?_, h1, h2⟩
            rw [hframe2 cid hcida hcni]
            exact hc

/-- Operation sequences over a `C4DiagramGenerator`, starting from the
empty store, with the builder calls restricted to level-correct anchors:
`create_container_diagram` is applied only when the anchor (if it
resolves at all) is a Context-level element, `create_component_diagram`
only when the anchor is a Container-level element.  These are exactly the
calls the surrounding application issues (system ids into the container
builder, container ids into the component builder); without the
restriction the invariant below fails — see `c2_counterexample`. -/
inductive RReachable : GenState → Prop where
  | init : RReachable initState
  | ctx (n d : String) {s : GenState} :
      RReachable s → RReachable (create_context_diagram n d s).2
  | container (sid : Nat) (specs : List ElementSpec) {s : GenState} :
      RReachable s →
      (∀ el, dictGet sid s.elements = some el → el.level = C4Level.context) →
      RReachable (create_container_diagram sid specs s).2
  | component (cid : Nat) (specs : List ElementSpec) {s : GenState} :
      RReachable s →
      (∀ el, dictGet cid s.elements = some el → el.level = C4Level.container) →
      RReachable (create_component_diagram cid specs s).2
  | addRel (did fid tid : Nat) (desc tech : String) {s : GenState} :
      RReachable s → RReachable (add_relationship did fid tid desc tech s).2
  | drill (eid : Nat) {s : GenState} :
      RReachable s → RReachable (drill_down eid s).2

/-- Both store invariants hold along every restricted operation sequence. -/
theorem rreachable_inv {s : GenState} (h : RReachable s) : StoreInv s ∧ ChildInv s := by
  induction h with
  | init =>
    constructor
    · intro p hp
      simp [initState] at hp
    · intro k e hk
      simp [initState, dictGet] at hk
  | ctx n d hr ih => exact create_context_preserves n d _ ih.1 ih.2
  | container sid specs hr hguard ih =>
    exact create_level_preserves C4Level.container "Container" "deployed on" " - Containers"
      sid specs _ ih.1 ih.2 (fun el hel => by rw [hguard el hel]; rfl)
  | component cid specs hr hguard ih =>
    exact create_level_preserves C4Level.component "Component" "part of" " - Components"
      cid specs _ ih.1 ih.2 (fun el hel => by rw [hguard el hel]; rfl)
  | addRel did fid tid desc tech hr ih =>
    exact inv_of_same_elements (add_relationship_elements did fid tid desc tech _).1
      (add_relationship_elements did fid tid desc tech _).2 ih.1 ih.2
  | drill eid hr ih =>
    exact inv_of_same_elements (drill_down_elements eid _).1
      (drill_down_elements eid _).2 ih.1 ih.2

/-- Claim C2 (amended): along every operation sequence from the empty
store in which `create_container_diagram` is anchored only on
Context-level elements and `create_component_diagram` only on
Container-level elements, the listed children of every stored element
resolve to elements exactly one level deeper whose `parent_id` is the id
of the parent.  (For arbitrary existing anchors the invariant fails — see
`c2_counterexample`.) -/
theorem c2_child_invariant {s : GenState} (h : RReachable s) : ChildInv s :=
  (rreachable_inv h).2

/-- Witness for C2 at a concrete input: the state after
`createContextDiagram("Payments", "handles billing")` on the empty store. -/
theorem c2_child_invariant_witness :
    ChildInv (create_context_diagram "Payments" "handles billing" initState).2 :=
  c2_child_invariant (RReachable.ctx "Payments" "handles billing" RReachable.init)

/-- A container spec used by the C2 counterexample. -/
def subSpec : ElementSpec := { name := "Sub" }

/-- The state after anchoring a `create_container_diagram` call on the
container element 3 ("API") instead of a system: element 8 ("Sub") is
created at Container level below a Container-level parent. -/
def badState : GenState := (create_container_diagram 3 [subSpec] payCont.2).2

/-- The mutated "API" element in `badState`. -/
def badApi : C4Element := (dictGet 3 badState.elements).getD default

/-- The "Sub" element in `badState`. -/
def badSub : C4Element := (dictGet 8 badState.elements).getD default

/-- Counterexample to C2 as stated: anchoring `create_container_diagram`
on the existing Container-level element 3 produces a store in which
the child 8 of element 3 sits at the same level as its parent, violating
"each child is exactly one level deeper" — so the invariant does
not hold for every choice of existing anchor. -/
theorem c2_counterexample :
    (dictGet 3 payCont.2.elements).isSome ∧ ¬ ChildInv badState := by
  refine ⟨by rfl, fun h => ?_⟩
  have hm : dictGet 3 badState.elements = some badApi := by rfl
  have h8 : (8 : Nat) ∈ badApi.children := by decide
  obtain ⟨c, hc, hl, hp⟩ := h 3 badApi hm 8 h8
  have hcs : dictGet 8 badState.elements = some badSub := by rfl
  have hcsub : c = badSub := Option.some.inj (hc.symm.trans hcs)
  rw [hcsub] at hl
  exact absurd hl (by decide)

/-! ### Claim C1: which diagram does drillDown reuse in the scenario? -/

/-- Counterexample to C1 as stated: in the Payments scenario
(`createContextDiagram` then `createContainerDiagram(systemId,
[API, Worker])`), `drillDown(systemId)` does NOT return the container
diagram (id 2).  The context diagram (id 0) also has the system as its
first element and was inserted earlier, and `drill_down` scans
`self.diagrams.values()` in insertion order, so the context diagram is
returned instead. -/
theorem c1_counterexample :
    (drill_down 1 payCont.2).1.map C4Diagram.id = some 0 ∧
    payCont.1.toOption.map C4Diagram.id = some 2 ∧
    (drill_down 1 payCont.2).1.map C4Diagram.id ≠ payCont.1.toOption.map C4Diagram.id := by
  refine ⟨rfl, rfl, fun h => ?_⟩
  have h0 : (drill_down 1 payCont.2).1.map C4Diagram.id = some 0 := rfl
  have h2 : payCont.1.toOption.map C4Diagram.id = some 2 := rfl
  rw [h0, h2] at h
  exact absurd h (by decide)

/-- Claim C1 (amended): in the scenario, `drillDown(systemId)` returns
the earliest-created stored diagram whose first element is the system —
here the context diagram, unchanged state (reuse, no construction) — and
not the container diagram. -/
theorem c1_amended :
    (drill_down 1 payCont.2).1 = some payCtx.1 ∧
    (drill_down 1 payCont.2).2 = payCont.2 := ⟨rfl, rfl⟩

/-! ### Claim C9: diagram elements are aliases, not snapshots -/

/-- The element records observed through the element list of a diagram, as the
renderer and hierarchy reader do: each element id dereferenced in the
current store (in Python the diagram holds the object references
themselves, which is observationally the same thing). -/
def observeElements (s : GenState) (d : C4Diagram) : List (Option C4Element) :=
  d.elements.map (fun eid => dictGet eid s.elements)

/-- Spec used by the later createContainerDiagram call of the C9 scenario. -/
def billSpec : ElementSpec := { name := "Billing" }

/-- The third builder call of the C9 scenario: another container ("Billing")
appended under the same system, after the container diagram was created. -/
def payCont2 : Except String C4Diagram × GenState :=
  create_container_diagram 1 [billSpec] payCont.2

/-- Counterexample to C9 as stated: the element records observed through
the already-created container diagram (id 2) change when a later
`createContainerDiagram` on the same system appends to the
`children` — they are not by-value snapshots. -/
theorem c9_counterexample :
    (dictGet 1 payCont.2.elements).map C4Element.children = some [3, 5] ∧
    (dictGet 1 payCont2.2.elements).map C4Element.children = some [3, 5, 8] ∧
    observeElements payCont2.2 payContD ≠ observeElements payCont.2 payContD := by
  exact ⟨rfl, rfl, by decide⟩

/-- Claim C9 (amended): the `elements` list of a diagram is a sequence of
references into the shared Element Store; later mutating calls leave the
diagram record itself (the id sequence and its order) unchanged, but the
element records observed through it do change — in the scenario the
parent observed through the container diagram gains the new child 8. -/
theorem c9_amended :
    dictGet 2 payCont2.2.diagrams = some payContD ∧
    payContD.elements = [1, 3, 5] ∧
    (observeElements payCont.2 payContD).head? =
      some ((dictGet 1 payCont.2.elements)) ∧
    (dictGet 1 payCont.2.elements).map C4Element.children = some [3, 5] ∧
    (dictGet 1 payCont2.2.elements).map C4Element.children = some [3, 5, 8] :=
  ⟨rfl, rfl, rfl, rfl, rfl⟩

/-! ### Claim C10: DOT export emits every element and every relationship -/

/-- Claim C10: for every stored diagram (whose element references
resolve, as generator-produced ones always do), the DOT export goes
through `generate_dot_format` and contains exactly one node line per
diagram element and exactly one edge line per relationship — every
relationship is emitted, endpoints present or not — whereas the plotly
renderer keeps only the relationships with both endpoints among the
elements of the diagram. -/
theorem c10_dot_export (s : GenState) (did : Nat) (d : C4Diagram)
    (hd : dictGet did s.diagrams = some d)
    (he : ∀ eid ∈ d.elements, (dictGet eid s.elements).isSome) :
    export_diagram_dot did s = generate_dot_format s d ∧
    (dotNodeLines s d).length = d.elements.length ∧
    (dotEdgeLines d).length = d.relationships.length ∧
    (∀ r ∈ d.relationships, dotEdgeLine r ∈ dotEdgeLines d) ∧
    (∀ r ∈ d.relationships,
      (d.elements.contains r.from_ = false ∨ d.elements.contains r.to_ = false) →
      r ∉ plotlyEdgeRels d) := by
  refine ⟨by simp [export_diagram_dot, hd], ?_, ?_, ?_, ?_⟩
  · refine filterMap_length_of_isSome (fun eid hm => ?_)
    have hs := he eid hm
    cases hx : dictGet eid s.elements with
    | none => rw [hx] at hs; simp at hs
    | some e => simp [hx]
  · simp [dotEdgeLines]
  · intro r hr
    exact List.mem_map_of_mem _ hr
  · intro r hr hcon hmem
    have hf := (List.mem_filter.mp hmem).2
    rcases hcon with h | h
    · rw [h] at hf; simp at hf
    · rw [h] at hf; simp at hf

/-- State for the C10 witness: the container diagram plus one extra
relationship whose endpoints 999/998 occur nowhere. -/
def dotState : GenState := (add_relationship 2 999 998 "uses" "" payCont.2).2

/-- The container diagram as stored in `dotState`. -/
def dDot : C4Diagram := (dictGet 2 dotState.diagrams).getD default

/-- Witness for C10 at a concrete input: the diagram has 3 elements and
3 relationships (two implicit "deployed on" edges plus the dangling
"uses" edge); the DOT export emits all 3 edges while the plotly renderer
keeps only 2. -/
theorem c10_dot_export_witness :
    export_diagram_dot 2 dotState = generate_dot_format dotState dDot ∧
    (dotNodeLines dotState dDot).length = dDot.elements.length ∧
    (dotEdgeLines dDot).length = dDot.relationships.length ∧
    dDot.relationships.length = 3 ∧
    (plotlyEdgeRels dDot).length = 2 := by
  have h := c10_dot_export dotState 2 dDot (by rfl) (by decide)
  exact ⟨h.1, h.2.1, h.2.2.1, by rfl, by rfl⟩

/-! ### Claim C8: the radial layout -/

/-- Claim C8: any position assignment computed by the layout of the renderer
for a 4-element diagram places indices 0..3 at (3,0), (0,3), (-3,0),
(0,-3) exactly (the real-valued idealization of the
"up to floating-point tolerance"), and any two layout computations for
the same diagram and element order agree everywhere (determinism). -/
theorem c8_layout (d : C4Diagram) (pos pos2 : Nat → ℝ × ℝ)
    (h4 : d.elements.length = 4)
    (hp : layoutOk d.elements.length pos) (hp2 : layoutOk d.elements.length pos2) :
    (pos 0 = ((3 : ℝ), 0) ∧ pos 1 = (0, 3) ∧ pos 2 = (-3, 0) ∧ pos 3 = (0, -3)) ∧
    (∀ i, i < d.elements.length → pos i = pos2 i) := by
  rw [h4] at hp hp2
  constructor
  · refine ⟨?_, ?_, ?_, ?_⟩
    · rw [hp 0 (by norm_num)]
      have e0 : 2 * Real.pi * ((0 : ℕ) : ℝ) / ((4 : ℕ) : ℝ) = 0 := by push_cast; ring
      rw [e0, Real.cos_zero, Real.sin_zero]
      norm_num
    · rw [hp 1 (by norm_num)]
      have e1 : 2 * Real.pi * ((1 : ℕ) : ℝ) / ((4 : ℕ) : ℝ) = Real.pi / 2 := by push_cast; ring
      rw [e1, Real.cos_pi_div_two, Real.sin_pi_div_two]
      norm_num
    · rw [hp 2 (by norm_num)]
      have e2 : 2 * Real.pi * ((2 : ℕ) : ℝ) / ((4 : ℕ) : ℝ) = Real.pi := by push_cast; ring
      rw [e2, Real.cos_pi, Real.sin_pi]
      norm_num
    · rw [hp 3 (by norm_num)]
      have e3 : 2 * Real.pi * ((3 : ℕ) : ℝ) / ((4 : ℕ) : ℝ) = Real.pi + Real.pi / 2 := by
        push_cast; ring
      rw [e3, Real.cos_add, Real.sin_add, Real.cos_pi, Real.sin_pi, Real.cos_pi_div_two,
        Real.sin_pi_div_two]
      norm_num
  · intro i hi
    rw [h4] at hi
    rw [hp i hi, hp2 i hi]

/-- A container call that yields a 4-element diagram (system plus three
containers) for the C8 witness. -/
def layCont : Except String C4Diagram × GenState :=
  create_container_diagram 1
    [{ name := "A" }, { name := "B" }, { name := "C" }] payCtx.2

/-- The 4-element diagram of `layCont`. -/
def layD : C4Diagram := layCont.1.toOption.getD default

/-- The exact real-valued radial placement for a 4-element diagram (the
formula of `generate_plotly_diagram` at `n = 4`); helper for the C8
witness. -/
noncomputable def idealLayout4 : Nat → ℝ × ℝ := fun i =>
  (3 * Real.cos (2 * Real.pi * i / ((4 : ℕ) : ℝ)),
   3 * Real.sin (2 * Real.pi * i / ((4 : ℕ) : ℝ)))

/-- Witness for C8 at a concrete input: the scenario diagram `layD` has
4 elements, `idealLayout4` satisfies the layout specification for it,
and its computed corners are exactly the four claimed points. -/
theorem c8_layout_witness :
    layD.elements.length = 4 ∧
    (idealLayout4 0 = ((3 : ℝ), 0) ∧ idealLayout4 1 = (0, 3) ∧
     idealLayout4 2 = (-3, 0) ∧ idealLayout4 3 = (0, -3)) := by
  have hok : layoutOk layD.elements.length idealLayout4 := fun i _ => rfl
  exact ⟨rfl, (c8_layout layD idealLayout4 idealLayout4 (by rfl) hok hok).1⟩

/-- Witness for C6 at a concrete input: drilling twice into the system
element of the Payments scenario. -/
theorem c6_drill_down_idempotent_witness :
    drill_down 1 ((drill_down 1 payCont.2).2) = drill_down 1 payCont.2 :=
  c6_drill_down_idempotent 1 payCont.2
